import Mathlib

/-!
Verification of the GPS-metadata parsing and GPS-to-clip association core of
`src/video_processor.py`.

The Python functions are shallowly embedded as executable Lean definitions:

* `parse_gps_data`   — embeds `parse_gps_data` (regex scan, per-match decoding
  with `strptime`-style validation, stable sort by timestamp);
* `associate_gps_with_clips` — embeds `associate_gps_with_clips`;
* `process_single_file` — embeds the pure core of `process_single_file`; the
  results of the external subprocess calls (the list of produced clip files
  with their probed durations, the raw metadata blob, and the probed video
  start time) are passed in as arguments.

Design choices of the embedding:

* Text is `List Char`; the regex
  `(\d{4}:\d{2}:\d{2} \d{2}:\d{2}:\d{2}Z)\s*([+-]?\d+\.\d+)\s*([+-]\d+\.\d+)`
  is embedded as a deterministic scanner.  For this particular pattern greedy
  matching needs no backtracking: after a maximal digit run the pattern always
  demands a character that can never be a digit, so the Python engine's
  backtracking can never produce a match the greedy scan misses.  `findMatches`
  reproduces `re.findall`: try a match at each position, emit non-overlapping
  matches left to right, resume after each match.
* Python `datetime` values are represented by their absolute second count
  (days since 0001-01-01 in the proleptic Gregorian calendar, times 86400,
  plus the seconds within the day — the same linearisation CPython's
  `datetime` uses internally).  Comparison of `datetime`s and addition of
  `timedelta(seconds=k)` then become integer comparison and addition.
* Python floats that the claims inspect (coordinates, clip durations) are
  represented exactly as scaled decimals `mant / 10 ^ exp10` (`Decimal`);
  the float tolerance test `abs(duration - segment_length) < 0.1` is embedded
  as an equivalent integer comparison (`keepDuration`), and the equivalence
  with the rational-valued comparison is proved (`keepDuration_iff`).
-/

/-- Exact scaled-decimal representation of the decimal literals the Python
code turns into floats: the value denoted is `mant / 10 ^ exp10`. -/
structure Decimal where
  mant : Int
  exp10 : Nat
deriving DecidableEq, Repr

/-- Rational value denoted by a `Decimal`. -/
def Decimal.toRat (d : Decimal) : ℚ := (d.mant : ℚ) / 10 ^ d.exp10

/-- Characters matched by `\d` (ASCII range; the blobs at issue are ASCII). -/
def isDigitCh (c : Char) : Bool := '0' ≤ c && c ≤ '9'

/-- Characters matched by `\s` (ASCII range). -/
def isSpaceCh (c : Char) : Bool :=
  c = ' ' || c = '\t' || c = '\n' || c = '\r' || c = '\x0b' || c = '\x0c'

/-- Sign characters, the class `[+-]`. -/
def isSignCh (c : Char) : Bool := c = '+' || c = '-'

/-- Numeric value of a digit string, as read by `int`/`strptime`. -/
def digitsToNat (ds : List Char) : Nat :=
  ds.foldl (fun a c => 10 * a + (c.toNat - 48)) 0

/-- Match `\d{n}` at the front of `s`: exactly `n` digit characters.
Returns the digits and the rest of the input. -/
def expectDigits (n : Nat) (s : List Char) : Option (List Char × List Char) :=
  if (s.take n).length = n ∧ (s.take n).all isDigitCh then
    some (s.take n, s.drop n)
  else none

/-- Match one fixed literal character at the front of `s`. -/
def expectChar (c : Char) (s : List Char) : Option (List Char) :=
  match s with
  | [] => none
  | x :: r => if x = c then some r else none

/-- Split a maximal (greedy `\d+`) digit run off the front of `s`. -/
def splitDigits (s : List Char) : List Char × List Char :=
  (s.takeWhile isDigitCh, s.dropWhile isDigitCh)

/-- Match `\d+\.\d+` (greedily) at the front of `s`.  Returns the matched
characters and the rest of the input. -/
def matchUnsignedDecimal (s : List Char) : Option (List Char × List Char) :=
  let (ip, r1) := splitDigits s
  if ip = [] then none
  else
    match r1 with
    | '.' :: r2 =>
      let (fp, r3) := splitDigits r2
      if fp = [] then none else some (ip ++ '.' :: fp, r3)
    | _ => none

/-- Match a decimal number group at the front of `s`.  With
`signRequired = false` this is the latitude group `[+-]?\d+\.\d+`; with
`signRequired = true` it is the longitude group `[+-]\d+\.\d+`. -/
def matchDecimal (signRequired : Bool) (s : List Char) : Option (List Char × List Char) :=
  match s with
  | [] => none
  | c :: rest =>
    if isSignCh c then
      (matchUnsignedDecimal rest).map (fun p => (c :: p.1, p.2))
    else if signRequired then none
    else matchUnsignedDecimal s

/-- Match the timestamp group `\d{4}:\d{2}:\d{2} \d{2}:\d{2}:\d{2}Z` at the
front of `s`.  Returns the matched 20 characters and the rest. -/
def matchTs (s : List Char) : Option (List Char × List Char) := do
  let (y, r1) ← expectDigits 4 s
  let r2 ← expectChar ':' r1
  let (mo, r3) ← expectDigits 2 r2
  let r4 ← expectChar ':' r3
  let (d, r5) ← expectDigits 2 r4
  let r6 ← expectChar ' ' r5
  let (h, r7) ← expectDigits 2 r6
  let r8 ← expectChar ':' r7
  let (mi, r9) ← expectDigits 2 r8
  let r10 ← expectChar ':' r9
  let (se, r11) ← expectDigits 2 r10
  let r12 ← expectChar 'Z' r11
  pure (y ++ [':'] ++ mo ++ [':'] ++ d ++ [' '] ++ h ++ [':'] ++ mi ++ [':'] ++ se ++ ['Z'], r12)

/-- One tuple produced by `re.findall` on the pattern: the three captured
groups (timestamp string including the trailing `Z`, latitude string,
longitude string), as character lists. -/
structure RawMatch where
  tsStr : List Char
  latStr : List Char
  lonStr : List Char
deriving DecidableEq, Repr

/-- Match the whole pattern at the front of `s`.  `\s*` is greedy and the
following groups can never start with a whitespace character, and each `\d+`
is greedy and is always followed by a pattern element that can never match a
digit, so the scan is deterministic. -/
def matchAt (s : List Char) : Option (RawMatch × List Char) :=
  match matchTs s with
  | none => none
  | some (ts, r1) =>
    match matchDecimal false (r1.dropWhile isSpaceCh) with
    | none => none
    | some (lat, r3) =>
      match matchDecimal true (r3.dropWhile isSpaceCh) with
      | none => none
      | some (lon, r5) => some (⟨ts, lat, lon⟩, r5)

/-- Scanner loop of `re.findall`: try the pattern at the current position;
on success emit the match and resume right after it, otherwise advance one
character.  `fuel` bounds the recursion; `findMatches` supplies enough. -/
def findAux : Nat → List Char → List RawMatch
  | 0, _ => []
  | Nat.succ fuel, s =>
    match matchAt s with
    | some (m, r) => m :: findAux fuel r
    | none =>
      match s with
      | [] => []
      | _ :: rest => findAux fuel rest

/-- All non-overlapping matches of the GPS pattern in `s`, left to right:
the embedding of `pattern.findall(raw_string)`. -/
def findMatches (s : List Char) : List RawMatch := findAux s.length s

/-- One unfolding step of the scanner loop. -/
lemma findAux_succ (fuel : Nat) (s : List Char) :
    findAux (fuel + 1) s =
      match matchAt s with
      | some (m, r) => m :: findAux fuel r
      | none =>
        match s with
        | [] => []
        | _ :: rest => findAux fuel rest := rfl

/-- Leap years of the proleptic Gregorian calendar. -/
def isLeapYear (y : Nat) : Bool := (y % 4 = 0 && y % 100 ≠ 0) || y % 400 = 0

/-- Number of days of month `m` (1-based) of year `y`. -/
def daysInMonth (y m : Nat) : Nat :=
  if m = 2 then (if isLeapYear y then 29 else 28)
  else if m = 4 ∨ m = 6 ∨ m = 9 ∨ m = 11 then 30
  else 31

/-- Days in the years `1, …, y-1`. -/
def daysBeforeYear (y : Nat) : Nat :=
  let n := y - 1
  n * 365 + n / 4 - n / 100 + n / 400

/-- Days in the months `1, …, m-1` of year `y`. -/
def daysBeforeMonth (y m : Nat) : Nat :=
  ((List.range (m - 1)).map (fun i => daysInMonth y (i + 1))).sum

/-- Absolute second count of a date-time: the linearisation of Python
`datetime` values under which `datetime` comparison is integer comparison and
adding `timedelta(seconds=k)` is adding `k`. -/
def dtToSecs (y mo d h mi s : Nat) : Int :=
  ((daysBeforeYear y + daysBeforeMonth y mo + (d - 1)) * 86400 + h * 3600 + mi * 60 + s : Nat)

/-- Range validation performed by
`datetime.strptime(ts_str, "%Y:%m:%d %H:%M:%SZ")` on a string whose fields
have the two-digit shape the regex guarantees: the `_strptime` field regexes
together with the `datetime` constructor accept exactly years ≥ 1, months
1–12, days 1–`daysInMonth`, hours ≤ 23, minutes ≤ 59 and seconds ≤ 59. -/
def validDT (y mo d h mi s : Nat) : Bool :=
  1 ≤ y && 1 ≤ mo && mo ≤ 12 && 1 ≤ d && d ≤ daysInMonth y mo &&
    h ≤ 23 && mi ≤ 59 && s ≤ 59

/-- Embedding of `datetime.strptime(ts_str, "%Y:%m:%d %H:%M:%SZ")` on the
timestamp strings produced by the matcher: re-parse the fields, check the
ranges, and return the absolute second count; `none` models the raised
`ValueError`. -/
def strptimeZ (s : List Char) : Option Int := do
  let (y, r1) ← expectDigits 4 s
  let r2 ← expectChar ':' r1
  let (mo, r3) ← expectDigits 2 r2
  let r4 ← expectChar ':' r3
  let (d, r5) ← expectDigits 2 r4
  let r6 ← expectChar ' ' r5
  let (h, r7) ← expectDigits 2 r6
  let r8 ← expectChar ':' r7
  let (mi, r9) ← expectDigits 2 r8
  let r10 ← expectChar ':' r9
  let (se, r11) ← expectDigits 2 r10
  let r12 ← expectChar 'Z' r11
  if r12 = [] ∧
      validDT (digitsToNat y) (digitsToNat mo) (digitsToNat d)
        (digitsToNat h) (digitsToNat mi) (digitsToNat se) = true then
    pure (dtToSecs (digitsToNat y) (digitsToNat mo) (digitsToNat d)
      (digitsToNat h) (digitsToNat mi) (digitsToNat se))
  else none

/-- Unsigned case of `float(s)` on strings of the shape `\d+\.\d+`, consuming
the whole string: the exact decimal value, as a `Decimal`. -/
def parseFloatCore (s : List Char) : Option Decimal :=
  let (ip, r1) := splitDigits s
  if ip = [] then none
  else
    match r1 with
    | '.' :: r2 =>
      let (fp, r3) := splitDigits r2
      if fp = [] ∨ r3 ≠ [] then none
      else some ⟨(digitsToNat ip * 10 ^ fp.length + digitsToNat fp : Nat), fp.length⟩
    | _ => none

/-- Embedding of `float(s)` on the group strings `[+-]?\d+\.\d+`: the exact
decimal value, as a `Decimal`. -/
def parseFloat (s : List Char) : Option Decimal :=
  match s with
  | '-' :: rest => (parseFloatCore rest).map (fun d => ⟨-d.mant, d.exp10⟩)
  | '+' :: rest => parseFloatCore rest
  | _ => parseFloatCore s

/-- A parsed GPS record: the dictionary
`{"timestamp": dt, "latitude": lat, "longitude": lon}`. -/
structure GpsRecord where
  timestamp : Int
  latitude : Decimal
  longitude : Decimal
deriving DecidableEq, Repr

/-- Body of the `for`-loop of `parse_gps_data`: decode one regex match into a
record; `none` models the caught exception (record dropped and logged). -/
def decodeMatch (m : RawMatch) : Option GpsRecord := do
  let t ← strptimeZ m.tsStr
  let la ← parseFloat m.latStr
  let lo ← parseFloat m.lonStr
  pure ⟨t, la, lo⟩

/-- Sort key order used by `gps_records.sort(key=lambda x: x["timestamp"])`. -/
def tsLe (a b : GpsRecord) : Prop := a.timestamp ≤ b.timestamp

instance : DecidableRel tsLe := fun a b =>
  inferInstanceAs (Decidable (a.timestamp ≤ b.timestamp))

instance : IsTotal GpsRecord tsLe := ⟨fun a b => Int.le_total a.timestamp b.timestamp⟩

instance : IsTrans GpsRecord tsLe := ⟨fun _ _ _ h h' => le_trans h h'⟩

/-- Embedding of `parse_gps_data`: find all matches, decode each (dropping
the ones `strptime` rejects), and sort stably by timestamp.  Python's
`list.sort` is a stable sort, as is `List.insertionSort` with a reflexive
key order, and any two stable sorts by the same key agree. -/
def parse_gps_data (raw : List Char) : List GpsRecord :=
  List.insertionSort tsLe ((findMatches raw).filterMap decodeMatch)

/-- One entry of `file_clips`: the per-clip dictionary built by
`process_single_file` (the commented-out `metadata` key is omitted there as
well); `gps_data` is the key added by `associate_gps_with_clips`. -/
structure ClipInfo where
  source_file : String
  clip_file : String
  clip_index : Nat
  dur : Decimal
  pothole : Bool
  gps_data : List GpsRecord
deriving DecidableEq, Repr

/-- Integer form of the duration filter
`abs(duration - segment_length) < 0.1` of `process_single_file`, on the exact
decimal `dur` denoting `dur.mant / 10 ^ dur.exp10`. -/
def keepDuration (dur : Decimal) (segment_length : Int) : Bool :=
  10 * (dur.mant - segment_length * (10 : Int) ^ dur.exp10).natAbs < 10 ^ dur.exp10

/-- The integer duration filter decides exactly the rational comparison
`|duration - segment_length| < 1/10` it embeds. -/
theorem keepDuration_iff (dur : Decimal) (L : Int) :
    keepDuration dur L = true ↔ |dur.toRat - (L : ℚ)| < 1 / 10 := by
  unfold keepDuration Decimal.toRat
  have hpow : (0 : ℚ) < 10 ^ dur.exp10 := by positivity
  have hne : ((10 : ℚ) ^ dur.exp10) ≠ 0 := ne_of_gt hpow
  have hsub : (dur.mant : ℚ) / 10 ^ dur.exp10 - (L : ℚ)
      = ((dur.mant - L * (10 : Int) ^ dur.exp10 : Int) : ℚ) / 10 ^ dur.exp10 := by
    field_simp
    ring
  rw [hsub, abs_div, abs_of_pos hpow, div_lt_div_iff₀ hpow (by norm_num : (0:ℚ) < 10)]
  rw [decide_eq_true_eq]
  constructor
  · intro h
    have h' : ((10 : ℚ) * (dur.mant - L * (10 : Int) ^ dur.exp10).natAbs)
        < ((10 : ℚ) ^ dur.exp10) := by exact_mod_cast h
    calc |((dur.mant - L * (10 : Int) ^ dur.exp10 : Int) : ℚ)| * 10
        = 10 * ((dur.mant - L * (10 : Int) ^ dur.exp10).natAbs : ℚ) := by
          rw [Int.cast_natAbs, Int.cast_abs]; ring
      _ < (10 : ℚ) ^ dur.exp10 := h'
      _ = 1 * 10 ^ dur.exp10 := by ring
  · intro h
    have h' : (10 : ℚ) * ((dur.mant - L * (10 : Int) ^ dur.exp10).natAbs : ℚ)
        < (10 : ℚ) ^ dur.exp10 := by
      calc (10 : ℚ) * ((dur.mant - L * (10 : Int) ^ dur.exp10).natAbs : ℚ)
          = |((dur.mant - L * (10 : Int) ^ dur.exp10 : Int) : ℚ)| * 10 := by
            rw [Int.cast_natAbs, Int.cast_abs]; ring
        _ < 1 * 10 ^ dur.exp10 := h
        _ = (10 : ℚ) ^ dur.exp10 := by ring
    exact_mod_cast h'

/-- Loop of `associate_gps_with_clips`: `i` is the `enumerate` counter.  Each
clip at counter value `i` receives the records of the half-open interval
`[video_start + i·L, video_start + (i+1)·L)`. -/
def associateAux (gps_records : List GpsRecord) (video_start segment_length : Int) :
    Nat → List ClipInfo → List ClipInfo
  | _, [] => []
  | i, clip :: rest =>
    let clip_start := video_start + (i : Int) * segment_length
    let clip_end := video_start + ((i : Int) + 1) * segment_length
    let clip_gps := gps_records.filter
      (fun r => decide (clip_start ≤ r.timestamp ∧ r.timestamp < clip_end))
    { clip with gps_data := clip_gps }
      :: associateAux gps_records video_start segment_length (i + 1) rest

/-- Embedding of `associate_gps_with_clips`: the Python function mutates each
dictionary of `clips_info` in place and returns the same list; the embedding
returns the updated list. -/
def associate_gps_with_clips (clips_info : List ClipInfo) (gps_records : List GpsRecord)
    (video_start segment_length : Int) : List ClipInfo :=
  associateAux gps_records video_start segment_length 0 clips_info

instance {ε α : Type} [DecidableEq ε] [DecidableEq α] : DecidableEq (Except ε α) :=
  fun a b =>
    match a, b with
    | Except.ok x, Except.ok y =>
      decidable_of_iff (x = y) (by constructor <;> (intro h; first | rw [h] | injection h))
    | Except.error x, Except.error y =>
      decidable_of_iff (x = y) (by constructor <;> (intro h; first | rw [h] | injection h))
    | Except.ok _, Except.error _ => isFalse (fun h => Except.noConfusion h)
    | Except.error _, Except.ok _ => isFalse (fun h => Except.noConfusion h)

/-- Embedding of the pure core of `process_single_file`.  The external
effects are passed in: `clip_files` is the segmenter's output paired with
each clip's probed duration, `raw_gps` is the ExifTool blob, and
`probed_start` is the result of `get_video_start_time` (with `none` for an
extraction failure).  `Except.error` models the raised `ValueError`. -/
def process_single_file (input_file : String) (clip_files : List (String × Decimal))
    (raw_gps : List Char) (probed_start : Option Int) (segment_length : Int) :
    Except String (List ClipInfo) :=
  let gps_records := parse_gps_data raw_gps
  let video_start : Option Int :=
    match probed_start with
    | some t => some t
    | none =>
      match gps_records with
      | [] => none
      | r :: _ => some r.timestamp
  match video_start with
  | none => Except.error ("Unable to determine the start time for " ++ input_file ++ ".")
  | some video_start =>
    let file_clips : List ClipInfo :=
      (clip_files.enum.filterMap (fun p =>
        if keepDuration p.2.2 segment_length then
          some { source_file := input_file, clip_file := p.2.1, clip_index := p.1,
                 dur := p.2.2, pothole := false, gps_data := [] }
        else none))
    Except.ok (associate_gps_with_clips file_clips gps_records video_start segment_length)

/-- Window characterisation of the association loop: the clip at list
position `j` of `associateAux … i` receives exactly the records of the
half-open window indexed by the counter value `i + j`. -/
lemma associateAux_getElem? (gps : List GpsRecord) (t0 L : Int) (cs : List ClipInfo) :
    ∀ i j : Nat,
      (associateAux gps t0 L i cs)[j]? =
        cs[j]?.map (fun c =>
          { c with gps_data := (gps.filter
              (fun r => decide (t0 + ((i + j : Nat) : Int) * L ≤ r.timestamp ∧
                r.timestamp < t0 + (((i + j : Nat) : Int) + 1) * L))) }) := by
  induction cs with
  | nil => intro i j; simp [associateAux]
  | cons c rest ih =>
    intro i j
    cases j with
    | zero => simp [associateAux]
    | succ j' =>
      simp only [associateAux, List.getElem?_cons_succ]
      rw [ih (i + 1) j']
      have h : i + 1 + j' = i + (j' + 1) := by omega
      rw [h]

/-- Window characterisation of `associate_gps_with_clips`: the clip at list
position `j` receives exactly the records of `[t0 + j·L, t0 + (j+1)·L)`. -/
lemma associate_getElem? (clips : List ClipInfo) (gps : List GpsRecord) (t0 L : Int)
    (j : Nat) :
    (associate_gps_with_clips clips gps t0 L)[j]? =
      clips[j]?.map (fun c =>
        { c with gps_data := (gps.filter
            (fun r => decide (t0 + (j : Int) * L ≤ r.timestamp ∧
              r.timestamp < t0 + ((j : Int) + 1) * L))) }) := by
  unfold associate_gps_with_clips
  rw [associateAux_getElem? gps t0 L clips 0 j]
  simp

/-- Inserting an element into a list changes the filtration by any fixed
timestamp value exactly as consing it at the front does: elements passed over
by `orderedInsert` have a strictly smaller timestamp than the inserted one,
hence a different timestamp. -/
lemma filter_orderedInsert_eq (t : Int) (a : GpsRecord) (l : List GpsRecord) :
    (List.orderedInsert tsLe a l).filter (fun r => decide (r.timestamp = t))
      = (a :: l).filter (fun r => decide (r.timestamp = t)) := by
  induction l with
  | nil => rfl
  | cons b l ih =>
    by_cases hab : tsLe a b
    · simp [List.orderedInsert, hab]
    · have hba : b.timestamp < a.timestamp := by
        unfold tsLe at hab; omega
      rw [List.orderedInsert, if_neg hab]
      simp only [List.filter_cons, ih]
      by_cases hat : a.timestamp = t
      · by_cases hbt : b.timestamp = t
        · omega
        · simp [hat, hbt]
      · by_cases hbt : b.timestamp = t
        · simp [hat, hbt]
        · simp [hat, hbt]

/-- The insertion sort by timestamp is stable: the sublist of records
carrying any fixed timestamp is unchanged by the sort. -/
lemma filter_insertionSort_eq (t : Int) (l : List GpsRecord) :
    (List.insertionSort tsLe l).filter (fun r => decide (r.timestamp = t))
      = l.filter (fun r => decide (r.timestamp = t)) := by
  induction l with
  | nil => rfl
  | cons a l ih =>
    rw [List.insertionSort, filter_orderedInsert_eq]
    simp [List.filter_cons, ih]

/-- C1, counterexample.  The claim says the window of a clip is derived from
its `clip_index` field even when intermediate clips have been discarded.  In
the code the window comes from the `enumerate` position instead: here the
middle clip (duration 0) is discarded, the record timestamped 23:00:35 lies
outside the `clip_index`-derived window `[t0+20, t0+30)` of the surviving
clip with `clip_index = 2` (it is 15 s after `t0` = 23:00:20), yet that clip
receives the record, because the clip sits at position 1 of the retained
list and the code gives it the window `[t0+10, t0+20)`. -/
theorem C1_counterexample :
    (process_single_file "v.mp4"
          [("a.mp4", ⟨10, 0⟩), ("b.mp4", ⟨0, 0⟩), ("c.mp4", ⟨10, 0⟩)]
          ("2025:03:31 23:00:35Z41.5-88.5".toList)
          (some (dtToSecs 2025 3 31 23 0 20)) 10).map
        (fun cs => cs.map (fun c => (c.clip_index, c.gps_data.map (fun r => r.timestamp))))
      = Except.ok [(0, []), (2, [dtToSecs 2025 3 31 23 0 35])]
    ∧ ¬ (dtToSecs 2025 3 31 23 0 20 + 2 * 10 ≤ dtToSecs 2025 3 31 23 0 35 ∧
          dtToSecs 2025 3 31 23 0 35 < dtToSecs 2025 3 31 23 0 20 + (2 + 1) * 10) := by
  decide

/-- C1, amended: for every clip handed to the Associator, the half-open
window used to select its GPS records is `[t0 + p·L, t0 + (p+1)·L)` where
`p` is the clip's position in the list passed to the Associator — which
equals the clip's `clip_index` field only when no earlier sibling clip has
been discarded. -/
theorem C1_window_from_position (clips : List ClipInfo) (gps : List GpsRecord)
    (t0 L : Int) (i : Nat) (h : i < clips.length) :
    (associate_gps_with_clips clips gps t0 L)[i]? =
      some { clips[i] with gps_data := (gps.filter
        (fun r => decide (t0 + (i : Int) * L ≤ r.timestamp ∧
          r.timestamp < t0 + ((i : Int) + 1) * L))) } := by
  rw [associate_getElem?]
  rw [List.getElem?_eq_getElem h]
  rfl

/-- C1, witness for the amended theorem: a clip with `clip_index = 2` sitting
at position 0 receives the records of the position-0 window `[5, 15)`. -/
theorem C1_window_from_position_witness :
    ((associate_gps_with_clips [⟨"v.mp4", "c.mp4", 2, ⟨10, 0⟩, false, []⟩]
        [⟨7, ⟨415, 1⟩, ⟨-885, 1⟩⟩] 5 10)[0]?).map (fun c => c.gps_data)
      = some [⟨7, ⟨415, 1⟩, ⟨-885, 1⟩⟩] := by
  have h := C1_window_from_position [⟨"v.mp4", "c.mp4", 2, ⟨10, 0⟩, false, []⟩]
    [⟨7, ⟨415, 1⟩, ⟨-885, 1⟩⟩] 5 10 0 (by decide)
  rw [h]
  rfl

/-- Shape, per the spec's matching rule, of a decimal number carrying no
leading sign: at least one digit, a point, at least one digit. -/
def specUnsignedDecimal (l : List Char) : Bool :=
  let ip := l.takeWhile isDigitCh
  let rest := l.dropWhile isDigitCh
  ip ≠ [] &&
    (match rest with
     | '.' :: fp => fp ≠ [] && fp.all isDigitCh
     | _ => false)

/-- C2, counterexample.  The blob is exactly a substring of the claimed form
`<date> <time>Z<lat><lon>` with latitude `41.5` and longitude `88.1`, the
longitude carrying no leading sign — yet the parser produces no record for
it, because the code's pattern demands a mandatory sign on the longitude. -/
theorem C2_counterexample :
    specUnsignedDecimal ("41.5".toList) = true ∧
    specUnsignedDecimal ("88.1".toList) = true ∧
    "2025:03:31 23:00:35Z41.588.1".toList
      = "2025:03:31 23:00:35Z".toList ++ "41.5".toList ++ "88.1".toList ∧
    parse_gps_data ("2025:03:31 23:00:35Z41.588.1".toList) = [] := by
  decide

/-- The mandatory-sign longitude group only ever matches with a leading
sign character. -/
lemma matchDecimal_true_sign (s g r : List Char)
    (h : matchDecimal true s = some (g, r)) :
    g.head? = some '+' ∨ g.head? = some '-' := by
  cases s with
  | nil => simp [matchDecimal] at h
  | cons c rest =>
    simp only [matchDecimal] at h
    by_cases hc : isSignCh c = true
    · rw [if_pos hc] at h
      cases hmu : matchUnsignedDecimal rest with
      | none => rw [hmu] at h; simp at h
      | some p =>
        rw [hmu] at h
        simp only [Option.map_some', Option.some.injEq, Prod.mk.injEq] at h
        obtain ⟨hg, _⟩ := h
        rw [← hg, List.head?_cons]
        have hc' : c = '+' ∨ c = '-' := by
          simpa [isSignCh, Bool.or_eq_true, decide_eq_true_eq] using hc
        rcases hc' with h1 | h1
        · exact Or.inl (by rw [h1])
        · exact Or.inr (by rw [h1])
    · rw [if_neg hc] at h
      simp at h

/-- Any successful match of the whole pattern carries a leading sign on its
longitude group. -/
lemma matchAt_lon_sign (s : List Char) (m : RawMatch) (rest : List Char)
    (h : matchAt s = some (m, rest)) :
    m.lonStr.head? = some '+' ∨ m.lonStr.head? = some '-' := by
  unfold matchAt at h
  split at h
  · simp at h
  · split at h
    · simp at h
    · split at h
      · simp at h
      · rename_i ts r1 heqts lat r3 heqlat lon r5 heqlon
        simp only [Option.some.injEq, Prod.mk.injEq] at h
        obtain ⟨hm, -⟩ := h
        rw [← hm]
        exact matchDecimal_true_sign _ lon r5 heqlon

/-- Every match emitted by the scanner loop carries a leading sign on its
longitude group. -/
lemma findAux_lon_sign :
    ∀ (fuel : Nat) (s : List Char) (m : RawMatch), m ∈ findAux fuel s →
      m.lonStr.head? = some '+' ∨ m.lonStr.head? = some '-' := by
  intro fuel
  induction fuel with
  | zero => intro s m h; simp [findAux] at h
  | succ fuel ih =>
    intro s m h
    rw [findAux_succ] at h
    cases hma : matchAt s with
    | some p =>
      rw [hma] at h
      obtain ⟨m', r⟩ := p
      rcases List.mem_cons.mp h with h1 | h1
      · rw [h1]; exact matchAt_lon_sign s m' r hma
      · exact ih r m h1
    | none =>
      rw [hma] at h
      cases s with
      | nil => simp at h
      | cons c rest => exact ih rest m h

/-- C2, amended: the parser's latitude group allows an optional leading sign
but its longitude group demands a mandatory one — every match it finds has
a longitude beginning with an explicit `+` or `-`, and a conforming substring
whose longitude is unsigned yields no record. -/
theorem C2_lon_sign_required (s : List Char) (m : RawMatch)
    (h : m ∈ findMatches s) :
    m.lonStr.head? = some '+' ∨ m.lonStr.head? = some '-' :=
  findAux_lon_sign s.length s m h

/-- C2, witness: the single match of the canonical blob, its longitude group
starting with the sign `-`. -/
theorem C2_lon_sign_required_witness :
    (RawMatch.mk ("2025:03:31 23:00:35Z".toList) ("41.7698047868907".toList)
        ("-88.120337175205329".toList)).lonStr.head? = some '+' ∨
    (RawMatch.mk ("2025:03:31 23:00:35Z".toList) ("41.7698047868907".toList)
        ("-88.120337175205329".toList)).lonStr.head? = some '-' :=
  C2_lon_sign_required ("2025:03:31 23:00:35Z41.7698047868907-88.120337175205329".toList)
    _ (by decide)

/-- C3, counterexample.  The claim says the GPS-timestamp fallback for a
missing video start time is explicitly flagged to downstream consumers.  It
is not: with the probed start time missing, the output is byte-for-byte the
output obtained with an explicit start time equal to the earliest record's
timestamp — the per-clip dictionaries carry no field or marker recording
that the degraded fallback was taken. -/
theorem C3_counterexample :
    process_single_file "v.mp4" [("a.mp4", ⟨10, 0⟩)]
        ("2025:03:31 23:00:35Z41.5-88.5".toList) none 10
      = process_single_file "v.mp4" [("a.mp4", ⟨10, 0⟩)]
          ("2025:03:31 23:00:35Z41.5-88.5".toList)
          (some (dtToSecs 2025 3 31 23 0 35)) 10
    ∧ (parse_gps_data ("2025:03:31 23:00:35Z41.5-88.5".toList)).map
        (fun r => r.timestamp) = [dtToSecs 2025 3 31 23 0 35]
    ∧ process_single_file "v.mp4" [("a.mp4", ⟨10, 0⟩)]
        ("2025:03:31 23:00:35Z41.5-88.5".toList) none 10
      = Except.ok [⟨"v.mp4", "a.mp4", 0, ⟨10, 0⟩, false,
          [⟨dtToSecs 2025 3 31 23 0 35, ⟨415, 1⟩, ⟨-885, 1⟩⟩]⟩] := by
  decide

/-- C3, amended: when the probed video start time is missing,
`process_single_file` silently falls back to the earliest GPS record's
timestamp as `t0` (producing output indistinguishable from a run whose probed
start time was that timestamp — no degraded-precision flag exists), and when
no GPS records are available either, the fatal error is propagated to the
caller. -/
theorem C3_fallback (f : String) (clip_files : List (String × Decimal))
    (raw : List Char) (L : Int) :
    (∀ r rest, parse_gps_data raw = r :: rest →
      process_single_file f clip_files raw none L
        = process_single_file f clip_files raw (some r.timestamp) L ∧
      ∀ r' ∈ parse_gps_data raw, r.timestamp ≤ r'.timestamp) ∧
    (parse_gps_data raw = [] →
      process_single_file f clip_files raw none L
        = Except.error ("Unable to determine the start time for " ++ f ++ ".")) := by
  constructor
  · intro r rest hparse
    constructor
    · unfold process_single_file
      rw [hparse]
    · intro r' hr'
      have hs : List.Sorted tsLe (parse_gps_data raw) :=
        List.sorted_insertionSort tsLe _
      rw [hparse] at hs hr'
      rcases List.mem_cons.mp hr' with h1 | h1
      · rw [h1]
      · exact (List.sorted_cons.mp hs).1 r' h1
  · intro hparse
    unfold process_single_file
    rw [hparse]

/-- C3, witness for the amended theorem: on a one-record blob, the fallback
run equals the run whose probed start time is that record's timestamp. -/
theorem C3_fallback_witness :
    process_single_file "v.mp4" [("a.mp4", ⟨10, 0⟩)]
        ("2025:03:31 23:00:35Z41.5-88.5".toList) none 10
      = process_single_file "v.mp4" [("a.mp4", ⟨10, 0⟩)]
          ("2025:03:31 23:00:35Z41.5-88.5".toList)
          (some (dtToSecs 2025 3 31 23 0 35)) 10 :=
  ((C3_fallback "v.mp4" [("a.mp4", ⟨10, 0⟩)]
      ("2025:03:31 23:00:35Z41.5-88.5".toList) 10).1
    ⟨dtToSecs 2025 3 31 23 0 35, ⟨415, 1⟩, ⟨-885, 1⟩⟩ [] (by decide)).1

/-- C4: with contiguous windows of positive length `L`, a record whose
timestamp is exactly the end boundary `t0 + (i+1)·L` of the window at
position `i` is never placed in the clip at position `i`, and is placed in
the clip at position `i+1` whenever such a clip exists (if `i+1` is out of
range the record is simply not placed there — it is dropped). -/
theorem C4_boundary (clips : List ClipInfo) (gps : List GpsRecord) (t0 L : Int)
    (r : GpsRecord) (i : Nat) (hL : 0 < L) (hr : r ∈ gps)
    (ht : r.timestamp = t0 + ((i : Int) + 1) * L) :
    (∀ c, (associate_gps_with_clips clips gps t0 L)[i]? = some c →
      r ∉ c.gps_data) ∧
    (∀ c, (associate_gps_with_clips clips gps t0 L)[i + 1]? = some c →
      r ∈ c.gps_data) := by
  constructor
  · intro c hc
    rw [associate_getElem?] at hc
    cases hcl : clips[i]? with
    | none => rw [hcl] at hc; simp at hc
    | some c0 =>
      rw [hcl] at hc
      simp only [Option.map_some', Option.some.injEq] at hc
      intro hmem
      rw [← hc] at hmem
      have := (List.mem_filter.mp hmem).2
      rw [decide_eq_true_eq] at this
      omega
  · intro c hc
    rw [associate_getElem?] at hc
    cases hcl : clips[i + 1]? with
    | none => rw [hcl] at hc; simp at hc
    | some c0 =>
      rw [hcl] at hc
      simp only [Option.map_some', Option.some.injEq] at hc
      rw [← hc]
      refine List.mem_filter.mpr ⟨hr, ?_⟩
      rw [decide_eq_true_eq]
      have hcast : ((i + 1 : Nat) : Int) = (i : Int) + 1 := by push_cast; ring
      rw [hcast]
      have hexp : t0 + ((i : Int) + 1 + 1) * L = t0 + ((i : Int) + 1) * L + L := by
        ring
      omega

/-- C4, witness: `t0 = 0`, `L = 10`, two clips; the record timestamped 10 —
the end boundary of window 0 — lands in clip 1 and not in clip 0. -/
theorem C4_boundary_witness :
    (⟨10, ⟨415, 1⟩, ⟨-885, 1⟩⟩ : GpsRecord) ∉
      (⟨"v.mp4", "a.mp4", 0, ⟨10, 0⟩, false, []⟩ : ClipInfo).gps_data ∧
    (⟨10, ⟨415, 1⟩, ⟨-885, 1⟩⟩ : GpsRecord) ∈
      (⟨"v.mp4", "b.mp4", 1, ⟨10, 0⟩, false,
        [⟨10, ⟨415, 1⟩, ⟨-885, 1⟩⟩]⟩ : ClipInfo).gps_data := by
  have h := C4_boundary
    [⟨"v.mp4", "a.mp4", 0, ⟨10, 0⟩, false, []⟩, ⟨"v.mp4", "b.mp4", 1, ⟨10, 0⟩, false, []⟩]
    [⟨10, ⟨415, 1⟩, ⟨-885, 1⟩⟩] 0 10 ⟨10, ⟨415, 1⟩, ⟨-885, 1⟩⟩ 0
    (by decide) (by decide) (by decide)
  exact ⟨h.1 _ (by decide), h.2 _ (by decide)⟩

/-- C5: for positive `L`, the record's timestamp lies in at most one of the
half-open windows `[t0 + i·L, t0 + (i+1)·L)` (they are disjoint), and a
record of the input appears in the clip at position `i` exactly when its
timestamp lies in window `i` — so a record inside some window appears in
exactly one clip's `gps_data` and a record outside all windows in none. -/
theorem C5_partition (clips : List ClipInfo) (gps : List GpsRecord) (t0 L : Int)
    (r : GpsRecord) (hL : 0 < L) (hr : r ∈ gps) :
    (∀ i j : Nat,
      (t0 + (i : Int) * L ≤ r.timestamp ∧ r.timestamp < t0 + ((i : Int) + 1) * L) →
      (t0 + (j : Int) * L ≤ r.timestamp ∧ r.timestamp < t0 + ((j : Int) + 1) * L) →
      i = j) ∧
    (∀ (i : Nat) (c : ClipInfo),
      (associate_gps_with_clips clips gps t0 L)[i]? = some c →
      (r ∈ c.gps_data ↔
        (t0 + (i : Int) * L ≤ r.timestamp ∧ r.timestamp < t0 + ((i : Int) + 1) * L))) := by
  have key : ∀ i j : Nat, i < j →
      (t0 + (i : Int) * L ≤ r.timestamp ∧ r.timestamp < t0 + ((i : Int) + 1) * L) →
      (t0 + (j : Int) * L ≤ r.timestamp ∧ r.timestamp < t0 + ((j : Int) + 1) * L) →
      False := by
    intro i j hij h1 h2
    have hle : ((i : Int) + 1) ≤ (j : Int) := by exact_mod_cast hij
    have hmul : ((i : Int) + 1) * L ≤ (j : Int) * L :=
      mul_le_mul_of_nonneg_right hle (le_of_lt hL)
    omega
  constructor
  · intro i j h1 h2
    rcases Nat.lt_trichotomy i j with h | h | h
    · exact absurd (key i j h h1 h2) (fun hf => hf)
    · exact h
    · exact absurd (key j i h h2 h1) (fun hf => hf)
  · intro i c hc
    rw [associate_getElem?] at hc
    cases hcl : clips[i]? with
    | none => rw [hcl] at hc; simp at hc
    | some c0 =>
      rw [hcl] at hc
      simp only [Option.map_some', Option.some.injEq] at hc
      rw [← hc]
      constructor
      · intro hmem
        have := (List.mem_filter.mp hmem).2
        rwa [decide_eq_true_eq] at this
      · intro hwin
        exact List.mem_filter.mpr ⟨hr, by rw [decide_eq_true_eq]; exact hwin⟩

/-- C5, witness: one clip, window `[0, 10)`, record timestamped 5: it appears
in the clip's records, and the window membership equivalence holds there. -/
theorem C5_partition_witness :
    (⟨5, ⟨415, 1⟩, ⟨-885, 1⟩⟩ : GpsRecord) ∈
      (⟨"v.mp4", "a.mp4", 0, ⟨10, 0⟩, false,
        [⟨5, ⟨415, 1⟩, ⟨-885, 1⟩⟩]⟩ : ClipInfo).gps_data ↔
    ((0 : Int) + ((0 : Nat) : Int) * 10 ≤ 5 ∧
      (5 : Int) < 0 + (((0 : Nat) : Int) + 1) * 10) :=
  (C5_partition [⟨"v.mp4", "a.mp4", 0, ⟨10, 0⟩, false, []⟩]
      [⟨5, ⟨415, 1⟩, ⟨-885, 1⟩⟩] 0 10 ⟨5, ⟨415, 1⟩, ⟨-885, 1⟩⟩
      (by decide) (by decide)).2 0 _ (by decide)

/-- C6: for every input blob the parser's output is sorted non-decreasing by
timestamp, and the sort is stable — the records carrying any fixed timestamp
appear in the output exactly as they do in the decoded match list, i.e. in
encounter order in the blob. -/
theorem C6_sorted_stable (raw : List Char) (t : Int) :
    List.Sorted tsLe (parse_gps_data raw) ∧
    (parse_gps_data raw).filter (fun r => decide (r.timestamp = t))
      = ((findMatches raw).filterMap decodeMatch).filter
          (fun r => decide (r.timestamp = t)) := by
  constructor
  · exact List.sorted_insertionSort tsLe _
  · unfold parse_gps_data
    exact filter_insertionSort_eq t _

/-- C7: a match that fails to decode (its date-time is rejected by
`strptime`) is dropped in isolation — the parser's output on the whole blob
equals the output obtained from the remaining matches, so one malformed
segment never aborts the parse (which is total by construction and never
raises to its caller). -/
theorem C7_bad_record_dropped (raw : List Char) (pre post : List RawMatch)
    (m : RawMatch) (hm : findMatches raw = pre ++ m :: post)
    (hbad : decodeMatch m = none) :
    parse_gps_data raw
      = List.insertionSort tsLe ((pre ++ post).filterMap decodeMatch) := by
  unfold parse_gps_data
  rw [hm]
  congr 1
  simp [List.filterMap_append, List.filterMap_cons, hbad]

/-- C7, witness: a blob with three matched segments whose middle one carries
the invalid month 13; the parse equals the parse of the two good segments. -/
theorem C7_bad_record_dropped_witness :
    parse_gps_data
        (String.toList ("2025:03:31 23:00:35Z1.5-2.5 " ++
          "2025:13:01 00:00:00Z3.5-4.5 2025:04:01 00:00:01Z5.5-6.5"))
      = List.insertionSort tsLe
          (([RawMatch.mk ("2025:03:31 23:00:35Z".toList) ("1.5".toList) ("-2.5".toList)] ++
            [RawMatch.mk ("2025:04:01 00:00:01Z".toList) ("5.5".toList) ("-6.5".toList)]).filterMap
            decodeMatch) :=
  C7_bad_record_dropped _
    [RawMatch.mk ("2025:03:31 23:00:35Z".toList) ("1.5".toList) ("-2.5".toList)]
    [RawMatch.mk ("2025:04:01 00:00:01Z".toList) ("5.5".toList) ("-6.5".toList)]
    (RawMatch.mk ("2025:13:01 00:00:00Z".toList) ("3.5".toList) ("-4.5".toList))
    (by decide) (by decide)

/-- C8: the canonical blob yields exactly one record, whose timestamp is
2025-03-31T23:00:35Z (as an absolute second count), whose latitude is the
exact decimal 41.7698047868907 and whose longitude is the exact decimal
-88.120337175205329 (the two `Decimal.toRat` conjuncts spell out the values
the scaled decimals denote). -/
theorem C8_canonical :
    parse_gps_data
        ("2025:03:31 23:00:35Z41.7698047868907-88.120337175205329".toList)
      = [⟨dtToSecs 2025 3 31 23 0 35, ⟨417698047868907, 13⟩, ⟨-88120337175205329, 15⟩⟩]
    ∧ Decimal.toRat ⟨417698047868907, 13⟩ = 41.7698047868907
    ∧ Decimal.toRat ⟨-88120337175205329, 15⟩ = -88.120337175205329 := by
  refine ⟨by decide, ?_, ?_⟩
  · unfold Decimal.toRat
    norm_num
  · unfold Decimal.toRat
    norm_num

/-- C9: when the GPS input is sorted by timestamp, every clip's attached
`gps_data` is a sublist of the input — the relative order of the input
records is preserved — and is therefore itself sorted non-decreasing by
timestamp. -/
theorem C9_gps_order_preserved (clips : List ClipInfo) (gps : List GpsRecord)
    (t0 L : Int) (hsorted : List.Sorted tsLe gps) (c : ClipInfo)
    (hc : c ∈ associate_gps_with_clips clips gps t0 L) :
    c.gps_data.Sublist gps ∧ List.Sorted tsLe c.gps_data := by
  obtain ⟨n, hn⟩ := List.mem_iff_get?.mp hc
  rw [List.get?_eq_getElem?, associate_getElem?] at hn
  cases hcl : clips[n]? with
  | none => rw [hcl] at hn; simp at hn
  | some c0 =>
    rw [hcl] at hn
    simp only [Option.map_some', Option.some.injEq] at hn
    have hdata : c.gps_data = gps.filter
        (fun r => decide (t0 + (n : Int) * L ≤ r.timestamp ∧
          r.timestamp < t0 + ((n : Int) + 1) * L)) := by
      rw [← hn]
    rw [hdata]
    exact ⟨List.filter_sublist gps,
      List.Pairwise.sublist (List.filter_sublist gps) hsorted⟩

/-- C9, witness: two sorted records, one clip with window `[0, 10)`; the
attached records form a sublist of the input and are sorted. -/
theorem C9_gps_order_preserved_witness :
    ((⟨"v.mp4", "a.mp4", 0, ⟨10, 0⟩, false,
        [⟨3, ⟨415, 1⟩, ⟨-885, 1⟩⟩, ⟨7, ⟨425, 1⟩, ⟨-895, 1⟩⟩]⟩ : ClipInfo)).gps_data.Sublist
      [⟨3, ⟨415, 1⟩, ⟨-885, 1⟩⟩, ⟨7, ⟨425, 1⟩, ⟨-895, 1⟩⟩] ∧
    List.Sorted tsLe ((⟨"v.mp4", "a.mp4", 0, ⟨10, 0⟩, false,
        [⟨3, ⟨415, 1⟩, ⟨-885, 1⟩⟩, ⟨7, ⟨425, 1⟩, ⟨-895, 1⟩⟩]⟩ : ClipInfo)).gps_data :=
  C9_gps_order_preserved [⟨"v.mp4", "a.mp4", 0, ⟨10, 0⟩, false, []⟩]
    [⟨3, ⟨415, 1⟩, ⟨-885, 1⟩⟩, ⟨7, ⟨425, 1⟩, ⟨-895, 1⟩⟩] 0 10
    (by simp [List.sorted_cons, tsLe])
    ⟨"v.mp4", "a.mp4", 0, ⟨10, 0⟩, false,
      [⟨3, ⟨415, 1⟩, ⟨-885, 1⟩⟩, ⟨7, ⟨425, 1⟩, ⟨-895, 1⟩⟩]⟩
    (by decide)

/-- Fields of a clip dictionary other than the `gps_data` key. -/
def clipFields (c : ClipInfo) : String × String × Nat × Decimal × Bool :=
  (c.source_file, c.clip_file, c.clip_index, c.dur, c.pothole)

/-- C10: the Associator returns a clip list of the same length and order as
its input and changes no field other than `gps_data`: mapping every clip to
its other five fields commutes with the association. -/
theorem C10_only_gps_data_changed (clips : List ClipInfo) (gps : List GpsRecord)
    (t0 L : Int) :
    (associate_gps_with_clips clips gps t0 L).length = clips.length ∧
    (associate_gps_with_clips clips gps t0 L).map clipFields
      = clips.map clipFields := by
  unfold associate_gps_with_clips
  have h : ∀ (cs : List ClipInfo) (i : Nat),
      (associateAux gps t0 L i cs).length = cs.length ∧
      (associateAux gps t0 L i cs).map clipFields = cs.map clipFields := by
    intro cs
    induction cs with
    | nil => intro i; simp [associateAux]
    | cons c rest ih =>
      intro i
      simp [associateAux, clipFields, (ih (i + 1)).1, (ih (i + 1)).2]
  exact h clips 0
